import Mathlib

set_option maxHeartbeats 1000000

namespace MovieSearch

/-!
Shallow embedding of the query-parsing and result-accumulation core of the
MyReactNativeApp repository: `src/utils/queryParser.ts`,
`src/constants/genres.ts` and `src/hooks/useSmartMovieSearch.ts`.

Strings are modelled as `List Char`.  The JavaScript regular expressions of
the source are modelled by explicit scanning functions specialised to the
exact patterns appearing there; `parseFloat` on captures of the form
`\d+\.?\d*` is modelled as the exact decimal value (a `Rat`).
-/

/-- ASCII whitespace, as used by the source's `\s` regex class and `trim`. -/
def jsIsSpace (c : Char) : Bool :=
  c = ' ' || c = '\t' || c = '\n' || c = '\r' || c = '\x0b' || c = '\x0c'

/-- JavaScript regex word character `[A-Za-z0-9_]`, used by `\b` boundaries. -/
def isWordChar (c : Char) : Bool :=
  c.isAlphanum || c = '_'

/-- JS `String.prototype.trim` (restricted to ASCII whitespace). -/
def trimList (s : List Char) : List Char :=
  ((s.dropWhile jsIsSpace).reverse.dropWhile jsIsSpace).reverse

/-- JS `replace(/\s+/g, ' ')`: each maximal whitespace run becomes one space. -/
def squeezeSpaces (s : List Char) : List Char :=
  s.foldr
    (fun c acc =>
      if jsIsSpace c then
        match acc with
        | ' ' :: _ => acc
        | _ => ' ' :: acc
      else c :: acc) []

/-- `parseInt(s, 10)` on an all-digit string. -/
def digitsToNat (s : List Char) : Nat :=
  s.foldl (fun n c => n * 10 + (c.toNat - '0'.toNat)) 0

/-- Exact decimal value of a numeral of the shape `\d+\.?\d*` (the source
feeds such captures to `parseFloat`). -/
def decToRat (s : List Char) : Rat :=
  let intPart := s.takeWhile Char.isDigit
  let rest := s.dropWhile Char.isDigit
  let fracPart :=
    match rest with
    | '.' :: t => t.takeWhile Char.isDigit
    | _ => []
  (digitsToNat intPart : Rat) + (digitsToNat fracPart : Rat) / ((10 : Rat) ^ fracPart.length)

/-- `pat` occurs at the head of `s`, character for character. -/
def listStartsWith : List Char → List Char → Bool
  | [], _ => true
  | _ :: _, [] => false
  | p :: ps, c :: cs => p = c && listStartsWith ps cs

/-- JS `hay.includes(pat)`: substring containment. -/
def isSubstrOf (pat : List Char) : List Char → Bool
  | [] => listStartsWith pat []
  | c :: cs => listStartsWith pat (c :: cs) || isSubstrOf pat cs

/-- Case-insensitive literal match at the head of `s`; returns the rest. -/
def matchLitCI : List Char → List Char → Option (List Char)
  | [], s => some s
  | _ :: _, [] => none
  | p :: ps, c :: cs => if c.toLower = p.toLower then matchLitCI ps cs else none

/-- Scan left to right for the first position where `matchAt` succeeds,
threading the character before the current position (needed for `\b`).
Returns (text before the match, match payload, rest after the match). -/
def findWithPrev (matchAt : Option Char → List Char → Option (List Char × List Char)) :
    Option Char → List Char → Option (List Char × List Char × List Char)
  | prev, [] =>
    match matchAt prev [] with
    | some (m, rest) => some ([], m, rest)
    | none => none
  | prev, c :: cs =>
    match matchAt prev (c :: cs) with
    | some (m, rest) => some ([], m, rest)
    | none =>
      match findWithPrev matchAt (some c) cs with
      | some (pre, m, rest) => some (c :: pre, m, rest)
      | none => none

/-- First match of a pattern that does not look at `\b` boundaries
(JS `string.match(re)` without the `g` flag). -/
def findFirstMatch (matchAt : List Char → Option (List Char × List Char)) (s : List Char) :
    Option (List Char × List Char × List Char) :=
  findWithPrev (fun _ t => matchAt t) none s

/-- Last char of `prev ++ l` (the character just before a continuation point). -/
def lastCharOf (prev : Option Char) (l : List Char) : Option Char :=
  match l.getLast? with
  | some c => some c
  | none => prev

/-- JS `replace(re, '')` with the `g` flag: remove every match, scanning left
to right and continuing right after each match.  `fuel` bounds the number of
matches; every pattern used here matches at least one character, so
`s.length` suffices. -/
def replaceAllAux (matchAt : Option Char → List Char → Option (List Char × List Char)) :
    Nat → Option Char → List Char → List Char
  | 0, _, s => s
  | fuel + 1, prev, s =>
    match findWithPrev matchAt prev s with
    | some (pre, m, rest) => pre ++ replaceAllAux matchAt fuel (lastCharOf prev (pre ++ m)) rest
    | none => s

def replaceAll (matchAt : Option Char → List Char → Option (List Char × List Char))
    (s : List Char) : List Char :=
  replaceAllAux matchAt s.length none s

/-- The digit part `(19|20)\d{2}` of the year regex, as a predicate on the
four matched characters. -/
def yearQuadOk (m : List Char) : Bool :=
  match m with
  | [a, b, c, d] => ((a = '1' && b = '9') || (a = '2' && b = '0')) && c.isDigit && d.isDigit
  | _ => false

/-- Word boundary `\b` before a word character, given the character to the
left (`none` at the start of the string). -/
def boundOkL : Option Char → Bool
  | none => true
  | some c => !isWordChar c

/-- Word boundary `\b` after a word character, given the rest of the string. -/
def boundOkR : List Char → Bool
  | [] => true
  | c :: _ => !isWordChar c

/-- The body of `/\b(19|20)\d{2}\b/` at the current position: the four digit
characters plus the trailing word boundary. -/
def yearQuadAt : List Char → Option (List Char × List Char)
  | a :: b :: c :: d :: rest =>
    if yearQuadOk [a, b, c, d] && boundOkR rest then some ([a, b, c, d], rest) else none
  | _ => none

/-- One attempt of `/\b(19|20)\d{2}\b/` at the current position (the leading
word boundary is a condition on the preceding character, since the token
starts with a digit). -/
def yearMatchAt (prev : Option Char) (s : List Char) : Option (List Char × List Char) :=
  if boundOkL prev then yearQuadAt s else none

/-- The regex class `[>>=]` of the source (the set `{>, =}`). -/
def isGtEq (c : Char) : Bool := c = '>' || c = '='

/-- Nonempty greedy run of characters satisfying `p`. -/
def takePlus (p : Char → Bool) (s : List Char) : Option (List Char × List Char) :=
  let tk := s.takeWhile p
  if tk = [] then none else some (tk, s.dropWhile p)

/-- Greedy match of `(\d+\.?\d*)`, returning (capture, rest). -/
def numCapture (s : List Char) : Option (List Char × List Char) :=
  let intPart := s.takeWhile Char.isDigit
  let r1 := s.dropWhile Char.isDigit
  if intPart = [] then none
  else
    match r1 with
    | '.' :: r2 => some (intPart ++ '.' :: r2.takeWhile Char.isDigit, r2.dropWhile Char.isDigit)
    | _ => some (intPart, r1)

/-- `/rating\s*[>>=]+\s*(\d+\.?\d*)/i` at the current position. -/
def ratingPat1At (s : List Char) : Option (List Char × List Char) :=
  match matchLitCI "rating".data s with
  | none => none
  | some s1 =>
    match takePlus isGtEq (s1.dropWhile jsIsSpace) with
    | none => none
    | some (_, s2) => numCapture (s2.dropWhile jsIsSpace)

/-- `/[>>=]+\s*(\d+\.?\d*)\s*rating/i` at the current position. -/
def ratingPat2At (s : List Char) : Option (List Char × List Char) :=
  match takePlus isGtEq s with
  | none => none
  | some (_, s1) =>
    match numCapture (s1.dropWhile jsIsSpace) with
    | none => none
    | some (cap, s2) =>
      match matchLitCI "rating".data (s2.dropWhile jsIsSpace) with
      | none => none
      | some s3 => some (cap, s3)

/-- `/(\d+\.?\d*)\s*\+/` at the current position. -/
def ratingPat3At (s : List Char) : Option (List Char × List Char) :=
  match numCapture s with
  | none => none
  | some (cap, s1) =>
    match s1.dropWhile jsIsSpace with
    | '+' :: s2 => some (cap, s2)
    | _ => none

/-- `/[>>=]\s*(\d+\.?\d*)/` at the current position. -/
def ratingPat4At : List Char → Option (List Char × List Char)
  | c :: cs => if isGtEq c then numCapture (cs.dropWhile jsIsSpace) else none
  | [] => none

/-- The source's `ratingPatterns` array, in order. -/
def ratingPatterns : List (List Char → Option (List Char × List Char)) :=
  [ratingPat1At, ratingPat2At, ratingPat3At, ratingPat4At]

/-- The source's pattern loop: try each regex in order; the first one that
matches anywhere wins, its capture is returned and the matched text is
removed from the remainder, which is then trimmed (`replace` + `trim`). -/
def tryPatterns :
    List (List Char → Option (List Char × List Char)) → List Char →
      Option (List Char × List Char)
  | [], _ => none
  | p :: ps, s =>
    match findFirstMatch p s with
    | some (pre, cap, rest) => some (cap, trimList (pre ++ rest))
    | none => tryPatterns ps s

/-- Greedy match of `(\d+)`. -/
def intCapture (s : List Char) : Option (List Char × List Char) :=
  takePlus Char.isDigit s

/-- `/runtime\s*[>>=]+\s*(\d+)/i` at the current position. -/
def runtimePat1At (s : List Char) : Option (List Char × List Char) :=
  match matchLitCI "runtime".data s with
  | none => none
  | some s1 =>
    match takePlus isGtEq (s1.dropWhile jsIsSpace) with
    | none => none
    | some (_, s2) => intCapture (s2.dropWhile jsIsSpace)

/-- `/longer\s+than\s+(\d+)/i` at the current position. -/
def runtimePat2At (s : List Char) : Option (List Char × List Char) :=
  match matchLitCI "longer".data s with
  | none => none
  | some s1 =>
    match takePlus jsIsSpace s1 with
    | none => none
    | some (_, s2) =>
      match matchLitCI "than".data s2 with
      | none => none
      | some s3 =>
        match takePlus jsIsSpace s3 with
        | none => none
        | some (_, s4) => intCapture s4

/-- `/[>>=]\s*(\d+)\s*min/i` at the current position. -/
def runtimePat3At : List Char → Option (List Char × List Char)
  | [] => none
  | c :: cs =>
    if isGtEq c then
      match intCapture (cs.dropWhile jsIsSpace) with
      | none => none
      | some (cap, s1) =>
        match matchLitCI "min".data (s1.dropWhile jsIsSpace) with
        | none => none
        | some s2 => some (cap, s2)
    else none

/-- The source's `runtimePatterns` array, in order. -/
def runtimePatterns : List (List Char → Option (List Char × List Char)) :=
  [runtimePat1At, runtimePat2At, runtimePat3At]

/-! ### Genre lexicon (`src/constants/genres.ts`) -/

structure GenreInfo where
  id : Nat
  name : String
  keywords : List String
deriving DecidableEq

/-- The `GENRE_INFO` table, verbatim from `src/constants/genres.ts`
(ids resolved through `GENRE_IDS`). -/
def GENRE_INFO : List GenreInfo :=
  [⟨28, "Action", ["action", "action-packed", "fights", "fighting", "martial arts"]⟩,
   ⟨12, "Adventure", ["adventure", "quest", "journey", "exploration"]⟩,
   ⟨16, "Animation", ["animation", "animated", "cartoon", "anime"]⟩,
   ⟨35, "Comedy", ["comedy", "funny", "humor", "humorous", "laugh", "hilarious"]⟩,
   ⟨80, "Crime", ["crime", "criminal", "heist", "robbery", "detective", "mafia", "gangster"]⟩,
   ⟨99, "Documentary", ["documentary", "doc", "real", "true story", "based on"]⟩,
   ⟨18, "Drama", ["drama", "dramatic", "emotional", "serious"]⟩,
   ⟨10751, "Family", ["family", "kids", "children", "family-friendly"]⟩,
   ⟨14, "Fantasy", ["fantasy", "magic", "magical", "wizard", "supernatural", "mythical"]⟩,
   ⟨36, "History", ["history", "historical", "period", "era", "wwii", "war"]⟩,
   ⟨27, "Horror", ["horror", "scary", "terror", "terrifying", "zombie", "haunted", "ghost"]⟩,
   ⟨10402, "Music", ["music", "musical", "concert", "band", "singer"]⟩,
   ⟨9648, "Mystery", ["mystery", "mysterious", "whodunit", "suspense"]⟩,
   ⟨10749, "Romance", ["romance", "romantic", "love", "relationship", "dating"]⟩,
   ⟨878, "Science Fiction", ["sci-fi", "science fiction", "scifi", "space", "alien", "future", "dystopia"]⟩,
   ⟨10770, "TV Movie", ["tv movie", "television"]⟩,
   ⟨53, "Thriller", ["thriller", "suspense", "intense", "gripping"]⟩,
   ⟨10752, "War", ["war", "military", "battle", "soldier", "combat"]⟩,
   ⟨37, "Western", ["western", "cowboy", "wild west", "frontier"]⟩]

/-- `Set.add` on an insertion-ordered list of ids. -/
def addIfAbsent (l : List Nat) (n : Nat) : List Nat :=
  if l.contains n then l else l ++ [n]

/-- `findGenresInText`: ids whose genre name (lowercased) or any keyword
occurs as a substring of the lowercased text, in insertion order. -/
def findGenresInText (text : List Char) : List Nat :=
  let lowerText := text.map Char.toLower
  GENRE_INFO.foldl
    (fun found g =>
      let found :=
        if isSubstrOf (g.name.data.map Char.toLower) lowerText then addIfAbsent found g.id
        else found
      g.keywords.foldl
        (fun found kw => if isSubstrOf kw.data lowerText then addIfAbsent found g.id else found)
        found)
    []

/-- The fixed `genreWords` shortlist stripped from the remainder (a list of
primary genre names, not the full keyword table). -/
def genreWords : List String :=
  ["action", "adventure", "animation", "comedy", "crime", "documentary", "drama",
   "family", "fantasy", "history", "horror", "music", "mystery", "romance",
   "sci-fi", "science fiction", "thriller", "war", "western"]

/-- One attempt of ``new RegExp(`\\b` + word + `\\b`, 'gi')`` at the current
position: word boundary, the word case-insensitively, word boundary. -/
def wordMatchAt (w : List Char) (prev : Option Char) (s : List Char) :
    Option (List Char × List Char) :=
  if (match prev with | some p => isWordChar p | none => false) then none
  else
    match matchLitCI w s with
    | none => none
    | some rest =>
      if (match rest with | [] => true | e :: _ => !isWordChar e) then
        some (s.take w.length, rest)
      else none

/-- The genre-word stripping loop: for each word in order, remove every
whole-word occurrence, then trim. -/
def stripGenreWords (s : List Char) : List Char :=
  genreWords.foldl (fun t w => trimList (replaceAll (wordMatchAt w.data) t)) s

/-! ### `parseSearchQuery` (`src/utils/queryParser.ts`) -/

structure ParsedSearchQuery where
  textQuery : Option String := none
  year : Option Nat := none
  minRating : Option Rat := none
  maxRating : Option Rat := none
  genres : Option (List String) := none
  minRuntime : Option Nat := none
  maxRuntime : Option Nat := none
  useDiscover : Bool
deriving DecidableEq

/-- Step 1 of `parseSearchQuery`: year extraction.  `match` with the `g` flag
yields all matches and `parseInt` is applied to the first; `replace` with the
`g` flag removes every match, then the remainder is trimmed.  Each step
threads the pair (result so far, remaining text). -/
def yearStep (p : ParsedSearchQuery × List Char) : ParsedSearchQuery × List Char :=
  match findWithPrev yearMatchAt none p.2 with
  | some (_, m, _) =>
    ({ p.1 with year := some (digitsToNat m), useDiscover := true },
     trimList (replaceAll yearMatchAt p.2))
  | none => p

/-- Step 2: rating extraction — the first of the four patterns (in array
order) that matches anywhere wins, and the loop breaks. -/
def ratingStep (p : ParsedSearchQuery × List Char) : ParsedSearchQuery × List Char :=
  match tryPatterns ratingPatterns p.2 with
  | some (cap, s1) => ({ p.1 with minRating := some (decToRat cap), useDiscover := true }, s1)
  | none => p

/-- Step 3: runtime extraction. -/
def runtimeStep (p : ParsedSearchQuery × List Char) : ParsedSearchQuery × List Char :=
  match tryPatterns runtimePatterns p.2 with
  | some (cap, s1) => ({ p.1 with minRuntime := some (digitsToNat cap), useDiscover := true }, s1)
  | none => p

/-- Step 4: genre extraction (via `findGenresInText`, ids stringified) and
genre-word stripping. -/
def genreStep (p : ParsedSearchQuery × List Char) : ParsedSearchQuery × List Char :=
  let foundGenres := findGenresInText p.2
  if foundGenres.length > 0 then
    ({ p.1 with genres := some (foundGenres.map (fun n => toString n)), useDiscover := true },
     stripGenreWords p.2)
  else p

/-- Step 5: collapse whitespace and trim; a nonempty remainder becomes the
title query. -/
def textStep (p : ParsedSearchQuery × List Char) : ParsedSearchQuery :=
  let t := trimList (squeezeSpaces p.2)
  if t = [] then p.1 else { p.1 with textQuery := some (String.mk t) }

/-- `parseSearchQuery`.  The guard `!query || !query.trim()` is equivalent to
the trimmed text being empty. -/
def parseSearchQuery (query : String) : ParsedSearchQuery :=
  if trimList query.data = [] then { useDiscover := false }
  else
    textStep (genreStep (runtimeStep (ratingStep (yearStep
      ({ useDiscover := false }, trimList query.data)))))

/-! ### `toDiscoverParams` (`src/utils/queryParser.ts`) -/

structure DiscoverMovieParams where
  page : Option Nat := none
  primary_release_year : Option Nat := none
  vote_average_gte : Option Rat := none
  vote_average_lte : Option Rat := none
  vote_count_gte : Option Nat := none
  with_genres : Option String := none
  with_runtime_gte : Option Nat := none
  with_runtime_lte : Option Nat := none
  sort_by : Option String := none
deriving DecidableEq

/-- JS truthiness of `parsed.year` (a `number | undefined`): `undefined` and
`0` are falsy. -/
def jsTruthyNat : Option Nat → Bool
  | none => false
  | some n => n != 0

/-- `toDiscoverParams`, field conditions exactly as in the source
(`if (parsed.year)`, `!== undefined` checks, `genres.length > 0`). -/
def toDiscoverParams (parsed : ParsedSearchQuery) : DiscoverMovieParams :=
  let params : DiscoverMovieParams := {}
  let params :=
    if jsTruthyNat parsed.year then { params with primary_release_year := parsed.year }
    else params
  let params :=
    match parsed.minRating with
    | some r => { params with vote_average_gte := some r, vote_count_gte := some 100 }
    | none => params
  let params :=
    match parsed.maxRating with
    | some r => { params with vote_average_lte := some r }
    | none => params
  let params :=
    match parsed.genres with
    | some gs => if gs.length > 0 then { params with with_genres := some (String.intercalate "," gs) } else params
    | none => params
  let params :=
    match parsed.minRuntime with
    | some n => { params with with_runtime_gte := some n }
    | none => params
  let params :=
    match parsed.maxRuntime with
    | some n => { params with with_runtime_lte := some n }
    | none => params
  { params with sort_by := some "popularity.desc" }

/-! ### Endpoint router and result accumulator (`src/hooks/useSmartMovieSearch.ts`) -/

inductive ApiMode
  | popular
  | search
  | discover
deriving DecidableEq

/-- The `apiMode` memo: blank debounced query routes to the popular listing,
`useDiscover` routes to the discover endpoint, otherwise plain search. -/
def apiMode (debouncedQuery : String) : ApiMode :=
  if trimList debouncedQuery.data = [] then ApiMode.popular
  else if (parseSearchQuery debouncedQuery).useDiscover then ApiMode.discover
  else ApiMode.search

structure Movie where
  id : Nat
  title : String
deriving DecidableEq

structure MovieListResponse where
  page : Nat
  results : List Movie
  total_pages : Nat
deriving DecidableEq

/-- The body of the accumulation effect: page 1 replaces; a later page
appends only the items whose id is not already present, in page order. -/
def accumulateResults (page : Nat) (prev results : List Movie) : List Movie :=
  if page = 1 then results
  else prev ++ results.filter (fun m => !((prev.map Movie.id).contains m.id))

/-- The accumulation effect including its `data?.results` guard: with no
successful data (e.g. an error response) the accumulated list is untouched. -/
def runAccumulationEffect (data : Option MovieListResponse) (page : Nat)
    (prev : List Movie) : List Movie :=
  match data with
  | some d => accumulateResults page prev d.results
  | none => prev

/-- Applying one result page to the accumulated list (the page number of the
response is the page it was requested for). -/
def applyPage (prev : List Movie) (p : MovieListResponse) : List Movie :=
  accumulateResults p.page prev p.results

/-- One search surface's session state (`useSmartMovieSearch` local state;
the mode is derived from the debounced query via `apiMode`). -/
structure SearchSession where
  debouncedQuery : String
  page : Nat
  accumulated : List Movie
  totalPages : Nat
  error : Option String
deriving DecidableEq

/-- External events driving the hook, at the granularity of the spec's
event model: a debounced query update, a successful page response for the
current request, a failed fetch. -/
inductive SearchEvent
  | debouncedQueryChanged (q : String)
  | dataArrived (d : MovieListResponse)
  | fetchFailed (e : String)

/-- Event step of the session.  A changed debounced query (or the mode change
it induces — the deps of the reset effect are `[debouncedQuery, apiMode]`)
resets the page to 1 and clears the accumulated list; a successful response
for the current page runs the accumulation effect; a failed fetch only
surfaces the error. -/
def stepSession (s : SearchSession) (ev : SearchEvent) : SearchSession :=
  match ev with
  | SearchEvent.debouncedQueryChanged q =>
    if q = s.debouncedQuery ∧ apiMode q = apiMode s.debouncedQuery then s
    else { s with debouncedQuery := q, page := 1, accumulated := [] }
  | SearchEvent.dataArrived d =>
    { s with accumulated := runAccumulationEffect (some d) s.page s.accumulated,
             totalPages := d.total_pages, error := none }
  | SearchEvent.fetchFailed e => { s with error := some e }

/-- Insertion-ordered dedup by id: the specification's "each distinct id
exactly once, in first-seen order". -/
def insertIfNewId (acc : List Movie) (m : Movie) : List Movie :=
  if (acc.map Movie.id).contains m.id then acc else acc ++ [m]

def firstSeenDedup (l : List Movie) : List Movie := l.foldl insertIfNewId []

/-- All items of a sequence of pages, in order. -/
def concatResults (ps : List MovieListResponse) : List Movie :=
  ps.foldr (fun p acc => p.results ++ acc) []

/-! ### Declarative description of a year token (for C6) -/

/-- `s` decomposes as `pre ++ m ++ rest` with `m` a year token of
`\b(19|20)\d{2}\b` (`prev` is the character just before `s`, `none` at the
start of the string); i.e. `m` is a maximal word-character run consisting of
exactly four digits in 1900–2099. -/
def YearSplit (prev : Option Char) (s pre m rest : List Char) : Prop :=
  s = pre ++ m ++ rest ∧ yearQuadOk m = true ∧
    boundOkL (lastCharOf prev pre) = true ∧ boundOkR rest = true

/-! ## Structural lemmas about the parser pipeline -/

/-- The flag/field coupling of `parseSearchQuery`: the advanced-filters flag
is set exactly together with one of the structured fields. -/
def FlagInv (r : ParsedSearchQuery) : Prop :=
  r.useDiscover = true ↔
    (r.year.isSome = true ∨ r.minRating.isSome = true ∨
     r.minRuntime.isSome = true ∨ r.genres.isSome = true)

/-- The parser never touches `maxRating` or `maxRuntime`. -/
def MaxInv (r : ParsedSearchQuery) : Prop :=
  r.maxRating = none ∧ r.maxRuntime = none

lemma flagInv_yearStep {p : ParsedSearchQuery × List Char} (h : FlagInv p.1) :
    FlagInv (yearStep p).1 := by
  unfold yearStep
  cases hf : findWithPrev yearMatchAt none p.2 with
  | none => exact h
  | some v =>
    obtain ⟨pre, m, rest⟩ := v
    simp [FlagInv]

lemma flagInv_ratingStep {p : ParsedSearchQuery × List Char} (h : FlagInv p.1) :
    FlagInv (ratingStep p).1 := by
  unfold ratingStep
  cases hf : tryPatterns ratingPatterns p.2 with
  | none => exact h
  | some v =>
    obtain ⟨cap, s1⟩ := v
    simp [FlagInv]

lemma flagInv_runtimeStep {p : ParsedSearchQuery × List Char} (h : FlagInv p.1) :
    FlagInv (runtimeStep p).1 := by
  unfold runtimeStep
  cases hf : tryPatterns runtimePatterns p.2 with
  | none => exact h
  | some v =>
    obtain ⟨cap, s1⟩ := v
    simp [FlagInv]

lemma flagInv_genreStep {p : ParsedSearchQuery × List Char} (h : FlagInv p.1) :
    FlagInv (genreStep p).1 := by
  simp only [genreStep]
  split
  · simp [FlagInv]
  · exact h

lemma flagInv_textStep {p : ParsedSearchQuery × List Char} (h : FlagInv p.1) :
    FlagInv (textStep p) := by
  simp only [textStep]
  split
  · exact h
  · simpa [FlagInv] using h

/-- C1: for every input string, `useDiscover` is true iff at least one of
year, rating, runtime or genre was detected; a query yielding only free text
keeps the flag false. -/
theorem parse_useDiscover_iff_structured (q : String) :
    (parseSearchQuery q).useDiscover = true ↔
      ((parseSearchQuery q).year.isSome = true ∨
       (parseSearchQuery q).minRating.isSome = true ∨
       (parseSearchQuery q).minRuntime.isSome = true ∨
       (parseSearchQuery q).genres.isSome = true) := by
  show FlagInv (parseSearchQuery q)
  unfold parseSearchQuery
  split
  · simp [FlagInv]
  · exact flagInv_textStep (flagInv_genreStep (flagInv_runtimeStep (flagInv_ratingStep
      (flagInv_yearStep (by simp [FlagInv])))))

lemma maxInv_yearStep {p : ParsedSearchQuery × List Char} (h : MaxInv p.1) :
    MaxInv (yearStep p).1 := by
  unfold yearStep
  cases hf : findWithPrev yearMatchAt none p.2 with
  | none => exact h
  | some v =>
    obtain ⟨pre, m, rest⟩ := v
    simpa [MaxInv] using h

lemma maxInv_ratingStep {p : ParsedSearchQuery × List Char} (h : MaxInv p.1) :
    MaxInv (ratingStep p).1 := by
  unfold ratingStep
  cases hf : tryPatterns ratingPatterns p.2 with
  | none => exact h
  | some v =>
    obtain ⟨cap, s1⟩ := v
    simpa [MaxInv] using h

lemma maxInv_runtimeStep {p : ParsedSearchQuery × List Char} (h : MaxInv p.1) :
    MaxInv (runtimeStep p).1 := by
  unfold runtimeStep
  cases hf : tryPatterns runtimePatterns p.2 with
  | none => exact h
  | some v =>
    obtain ⟨cap, s1⟩ := v
    simpa [MaxInv] using h

lemma maxInv_genreStep {p : ParsedSearchQuery × List Char} (h : MaxInv p.1) :
    MaxInv (genreStep p).1 := by
  simp only [genreStep]
  split
  · simpa [MaxInv] using h
  · exact h

lemma maxInv_textStep {p : ParsedSearchQuery × List Char} (h : MaxInv p.1) :
    MaxInv (textStep p) := by
  simp only [textStep]
  split
  · exact h
  · simpa [MaxInv] using h

/-- The rating-upper-bound and runtime-upper-bound branches of
`toDiscoverParams` are skipped when the query has no `maxRating`/`maxRuntime`. -/
lemma toDiscoverParams_no_upper (parsed : ParsedSearchQuery)
    (h1 : parsed.maxRating = none) (h2 : parsed.maxRuntime = none) :
    (toDiscoverParams parsed).vote_average_lte = none ∧
    (toDiscoverParams parsed).with_runtime_lte = none := by
  obtain ⟨tq, y, mr, xr, g, mnr, mxr, ud⟩ := parsed
  have hxr : xr = none := h1
  have hmxr : mxr = none := h2
  subst hxr hmxr
  cases y <;> cases mr <;> cases g <;> cases mnr <;>
    refine ⟨?_, ?_⟩ <;> simp only [toDiscoverParams] <;> (try split_ifs) <;> rfl

/-- C10: no input ever yields `maxRating` or `maxRuntime`, so the mapper's
upper-bound outputs are unreachable from parser-produced queries. -/
theorem parse_never_sets_upper_bounds (q : String) :
    (parseSearchQuery q).maxRating = none ∧
    (parseSearchQuery q).maxRuntime = none ∧
    (toDiscoverParams (parseSearchQuery q)).vote_average_lte = none ∧
    (toDiscoverParams (parseSearchQuery q)).with_runtime_lte = none := by
  have hm : MaxInv (parseSearchQuery q) := by
    unfold parseSearchQuery
    split
    · exact ⟨rfl, rfl⟩
    · exact maxInv_textStep (maxInv_genreStep (maxInv_runtimeStep (maxInv_ratingStep
        (maxInv_yearStep ⟨rfl, rfl⟩))))
  have hp := toDiscoverParams_no_upper _ hm.1 hm.2
  exact ⟨hm.1, hm.2, hp.1, hp.2⟩

/-- C2: the router's mode is POPULAR on a blank debounced query, DISCOVER on
a non-blank query with the advanced flag, SEARCH otherwise; with the three
concrete examples of the specification. -/
theorem apiMode_routing :
    (∀ q : String,
      (trimList q.data = [] → apiMode q = ApiMode.popular) ∧
      (trimList q.data ≠ [] → (parseSearchQuery q).useDiscover = true →
        apiMode q = ApiMode.discover) ∧
      (trimList q.data ≠ [] → (parseSearchQuery q).useDiscover = false →
        apiMode q = ApiMode.search)) ∧
    apiMode "" = ApiMode.popular ∧
    apiMode "inception" = ApiMode.search ∧
    apiMode "action 2020 rating>7" = ApiMode.discover := by
  refine ⟨fun q => ⟨?_, ?_, ?_⟩, by decide, by decide, by decide⟩
  · intro h; simp [apiMode, h]
  · intro h hf; simp [apiMode, h, hf]
  · intro h hf; simp [apiMode, h, hf]

/-- Witness for C2 at the concrete input "inception". -/
theorem apiMode_routing_witness : apiMode "inception" = ApiMode.search :=
  (apiMode_routing.1 "inception").2.2 (by decide) (by decide)

/-- C5: the mapper always emits the popularity-descending sort key, and a
present `minRating` yields both a rating lower bound equal to it and a fixed
vote-count lower bound of 100. -/
theorem toDiscoverParams_rating_floor :
    (∀ parsed : ParsedSearchQuery,
      (toDiscoverParams parsed).sort_by = some "popularity.desc" ∧
      (∀ r : Rat, parsed.minRating = some r →
        (toDiscoverParams parsed).vote_average_gte = some r ∧
        (toDiscoverParams parsed).vote_count_gte = some 100)) ∧
    (toDiscoverParams { minRating := some 7, useDiscover := true }).vote_average_gte = some 7 ∧
    (toDiscoverParams { minRating := some 7, useDiscover := true }).vote_count_gte = some 100 := by
  refine ⟨fun parsed => ⟨rfl, ?_⟩, by decide, by decide⟩
  obtain ⟨tq, y, mr, xr, g, mnr, mxr, ud⟩ := parsed
  intro r h
  have hmr : mr = some r := h
  subst hmr
  cases y <;> cases xr <;> cases g <;> cases mnr <;> cases mxr <;>
    refine ⟨?_, ?_⟩ <;> simp only [toDiscoverParams] <;> (try split_ifs) <;> rfl

/-- The decimal value of the single-digit capture "7". -/
lemma decToRat_digit7 : decToRat ['7'] = 7 := by
  show (digitsToNat ['7'] : Rat) + (digitsToNat [] : Rat) / ((10 : Rat) ^ (0 : Nat)) = 7
  rw [show digitsToNat ['7'] = (7 : Nat) from rfl, show digitsToNat [] = (0 : Nat) from rfl]
  norm_num

/-- Witness for C5 at the specification's example `{minRating: 7}`. -/
theorem toDiscoverParams_rating_floor_witness :
    (toDiscoverParams { minRating := some 7, useDiscover := true }).vote_average_gte = some 7 ∧
    (toDiscoverParams { minRating := some 7, useDiscover := true }).vote_count_gte = some 100 :=
  (toDiscoverParams_rating_floor.1 { minRating := some 7, useDiscover := true }).2 7 rfl

/-- C7: rating extraction tries the four patterns in their array order; the
first one that matches anywhere determines `minRating` (decimal value of the
capture) and its match is removed from the remainder; if none matches the
step is a no-op (so at most one rating is ever extracted).  With the
specification's arbitration example "rating>7 8+". -/
theorem rating_pattern_priority :
    (∀ (p : ParsedSearchQuery × List Char) (pre cap rest : List Char),
      findFirstMatch ratingPat1At p.2 = some (pre, cap, rest) →
      ratingStep p = ({ p.1 with minRating := some (decToRat cap), useDiscover := true },
        trimList (pre ++ rest))) ∧
    (∀ (p : ParsedSearchQuery × List Char) (pre cap rest : List Char),
      findFirstMatch ratingPat1At p.2 = none →
      findFirstMatch ratingPat2At p.2 = some (pre, cap, rest) →
      ratingStep p = ({ p.1 with minRating := some (decToRat cap), useDiscover := true },
        trimList (pre ++ rest))) ∧
    (∀ (p : ParsedSearchQuery × List Char) (pre cap rest : List Char),
      findFirstMatch ratingPat1At p.2 = none →
      findFirstMatch ratingPat2At p.2 = none →
      findFirstMatch ratingPat3At p.2 = some (pre, cap, rest) →
      ratingStep p = ({ p.1 with minRating := some (decToRat cap), useDiscover := true },
        trimList (pre ++ rest))) ∧
    (∀ (p : ParsedSearchQuery × List Char) (pre cap rest : List Char),
      findFirstMatch ratingPat1At p.2 = none →
      findFirstMatch ratingPat2At p.2 = none →
      findFirstMatch ratingPat3At p.2 = none →
      findFirstMatch ratingPat4At p.2 = some (pre, cap, rest) →
      ratingStep p = ({ p.1 with minRating := some (decToRat cap), useDiscover := true },
        trimList (pre ++ rest))) ∧
    (∀ p : ParsedSearchQuery × List Char,
      findFirstMatch ratingPat1At p.2 = none →
      findFirstMatch ratingPat2At p.2 = none →
      findFirstMatch ratingPat3At p.2 = none →
      findFirstMatch ratingPat4At p.2 = none →
      ratingStep p = p) ∧
    (parseSearchQuery "rating>7 8+").minRating = some 7 ∧
    (parseSearchQuery "rating>7 8+").textQuery = some "8+" := by
  refine ⟨?_, ?_, ?_, ?_, ?_, ?_, by decide⟩
  · intro p pre cap rest h1
    simp [ratingStep, tryPatterns, ratingPatterns, h1]
  · intro p pre cap rest h1 h2
    simp [ratingStep, tryPatterns, ratingPatterns, h1, h2]
  · intro p pre cap rest h1 h2 h3
    simp [ratingStep, tryPatterns, ratingPatterns, h1, h2, h3]
  · intro p pre cap rest h1 h2 h3 h4
    simp [ratingStep, tryPatterns, ratingPatterns, h1, h2, h3, h4]
  · intro p h1 h2 h3 h4
    simp [ratingStep, tryPatterns, ratingPatterns, h1, h2, h3, h4]
  · rw [show (parseSearchQuery "rating>7 8+").minRating = some (decToRat ['7']) from rfl,
      decToRat_digit7]

/-- Witness for C7: on "rating>7 8+" the first pattern wins at position 0
with capture "7". -/
theorem rating_pattern_priority_witness :
    ratingStep ({ useDiscover := false }, "rating>7 8+".data) =
      ({ minRating := some (decToRat ['7']), useDiscover := true },
        trimList ([] ++ [' ', '8', '+'])) :=
  rating_pattern_priority.1 ({ useDiscover := false }, "rating>7 8+".data) [] ['7']
    [' ', '8', '+'] (by decide)

/-- A `replace` with no match anywhere returns the string unchanged. -/
lemma replaceAll_no_match {matchAt : Option Char → List Char → Option (List Char × List Char)}
    {s : List Char} (h : findWithPrev matchAt none s = none) : replaceAll matchAt s = s := by
  unfold replaceAll
  cases hl : s.length with
  | zero => rfl
  | succ n => simp [replaceAllAux, h]

lemma foldl_id_of_fixed {α β : Type} (f : α → β → α) (a : α) :
    ∀ l : List β, (∀ b ∈ l, f a b = a) → l.foldl f a = a := by
  intro l
  induction l with
  | nil => intro _; rfl
  | cons x t ih =>
    intro h
    rw [List.foldl_cons, h x (List.mem_cons_self x t)]
    exact ih fun b hb => h b (List.mem_cons_of_mem x hb)

/-- C8: a genre matched only through a keyword outside the fixed shortlist is
recorded in `genres` but not removed from the remainder — "zombie" yields
genre id 27 (Horror) while the word survives into the text query.  The word
stripping removes occurrences of the `genreWords` shortlist only: a (trimmed)
remainder with no shortlist-word occurrence passes through unchanged. -/
theorem genre_keyword_survives :
    parseSearchQuery "zombie" =
      { textQuery := some "zombie", genres := some ["27"], useDiscover := true } ∧
    (∀ s : List Char, trimList s = s →
      (∀ w ∈ genreWords, findWithPrev (wordMatchAt w.data) none s = none) →
      stripGenreWords s = s) := by
  refine ⟨by decide, ?_⟩
  intro s htrim hnone
  unfold stripGenreWords
  exact foldl_id_of_fixed _ s genreWords fun w hw => by
    rw [replaceAll_no_match (hnone w hw), htrim]

/-- Witness for C8 at the concrete remainder "zombie". -/
theorem genre_keyword_survives_witness : stripGenreWords "zombie".data = "zombie".data :=
  genre_keyword_survives.2 "zombie".data (by decide) (by decide)

/-- C9: a failed fetch (no result items) leaves the accumulated set exactly
as it was, both at the session level and inside the accumulation effect's
`data?.results` guard. -/
theorem failed_fetch_preserves_accumulated :
    (∀ (s : SearchSession) (e : String),
      (stepSession s (SearchEvent.fetchFailed e)).accumulated = s.accumulated ∧
      (stepSession s (SearchEvent.fetchFailed e)).page = s.page ∧
      (stepSession s (SearchEvent.fetchFailed e)).error = some e) ∧
    (∀ (page : Nat) (prev : List Movie), runAccumulationEffect none page prev = prev) :=
  ⟨fun _ _ => ⟨rfl, rfl, rfl⟩, fun _ _ => rfl⟩

/-- C4: a change of the debounced query (or of the mode it induces) resets
the page to 1 and clears the accumulated set, so the next arriving results
replace rather than merge into stale state. -/
theorem reset_on_query_change (s : SearchSession) (q : String)
    (h : ¬(q = s.debouncedQuery ∧ apiMode q = apiMode s.debouncedQuery)) :
    (stepSession s (SearchEvent.debouncedQueryChanged q)).page = 1 ∧
    (stepSession s (SearchEvent.debouncedQueryChanged q)).accumulated = [] ∧
    ∀ d : MovieListResponse,
      (stepSession (stepSession s (SearchEvent.debouncedQueryChanged q))
        (SearchEvent.dataArrived d)).accumulated = d.results := by
  simp only [stepSession]
  rw [if_neg h]
  refine ⟨rfl, rfl, fun d => ?_⟩
  simp [runAccumulationEffect, accumulateResults]

/-- Witness for C4: a concrete session with stale page and results. -/
theorem reset_on_query_change_witness :
    (stepSession ⟨"western", 3, [⟨5, "E"⟩], 9, none⟩
      (SearchEvent.debouncedQueryChanged "inception")).page = 1 ∧
    (stepSession ⟨"western", 3, [⟨5, "E"⟩], 9, none⟩
      (SearchEvent.debouncedQueryChanged "inception")).accumulated = [] ∧
    (stepSession (stepSession ⟨"western", 3, [⟨5, "E"⟩], 9, none⟩
        (SearchEvent.debouncedQueryChanged "inception"))
      (SearchEvent.dataArrived ⟨1, [⟨7, "G"⟩], 4⟩)).accumulated = [⟨7, "G"⟩] := by
  have h := reset_on_query_change ⟨"western", 3, [⟨5, "E"⟩], 9, none⟩ "inception" (by decide)
  exact ⟨h.1, h.2.1, h.2.2 ⟨1, [⟨7, "G"⟩], 4⟩⟩

/-! ## Result accumulator lemmas (C3) -/

lemma insertIfNewId_fold_eq_append_filter :
    ∀ (l acc : List Movie), (l.map Movie.id).Nodup →
      l.foldl insertIfNewId acc =
        acc ++ l.filter (fun m => !((acc.map Movie.id).contains m.id)) := by
  intro l
  induction l with
  | nil => intro acc _; simp
  | cons m t ih =>
    intro acc h
    simp only [List.map_cons, List.nodup_cons] at h
    obtain ⟨hm, ht⟩ := h
    rw [List.foldl_cons, List.filter_cons]
    by_cases hc : (acc.map Movie.id).contains m.id
    · rw [insertIfNewId, if_pos hc, ih acc ht, if_neg (by simpa using hc)]
    · have hc' : (acc.map Movie.id).contains m.id = false := by
        revert hc; cases (acc.map Movie.id).contains m.id <;> simp
      have hfil : t.filter (fun x => !(((acc ++ [m]).map Movie.id).contains x.id)) =
          t.filter (fun x => !((acc.map Movie.id).contains x.id)) := by
        apply List.filter_congr
        intro x hx
        have hne : x.id ≠ m.id := fun he => hm (he ▸ List.mem_map_of_mem Movie.id hx)
        simp [hne]
      rw [insertIfNewId, if_neg hc, ih _ ht, hfil, if_pos (by simpa using hc')]
      simp [List.append_assoc]


lemma insertIfNewId_fold_nodup :
    ∀ (l acc : List Movie), ((acc.map Movie.id)).Nodup →
      ((l.foldl insertIfNewId acc).map Movie.id).Nodup := by
  intro l
  induction l with
  | nil => intro acc h; exact h
  | cons m t ih =>
    intro acc h
    rw [List.foldl_cons]
    by_cases hc : (acc.map Movie.id).contains m.id
    · rw [insertIfNewId, if_pos hc]; exact ih acc h
    · rw [insertIfNewId, if_neg hc]
      refine ih _ ?_
      rw [List.map_append]
      simp only [List.contains_iff_exists_mem_beq] at hc
      rw [List.nodup_append]
      refine ⟨h, List.nodup_singleton _, ?_⟩
      intro a ha hb
      simp only [List.map_cons, List.map_nil, List.mem_singleton] at hb
      exact hc ⟨a, ha, by simp [hb]⟩

lemma concatResults_cons (p : MovieListResponse) (t : List MovieListResponse) :
    concatResults (p :: t) = p.results ++ concatResults t := rfl

lemma foldl_applyPage_eq_insertFold :
    ∀ (ps : List MovieListResponse) (acc : List Movie),
      (∀ p ∈ ps, p.page ≠ 1) → (∀ p ∈ ps, (p.results.map Movie.id).Nodup) →
      ps.foldl applyPage acc = (concatResults ps).foldl insertIfNewId acc := by
  intro ps
  induction ps with
  | nil => intro acc _ _; rfl
  | cons p t ih =>
    intro acc hp hn
    rw [List.foldl_cons, concatResults_cons, List.foldl_append]
    have h1 : applyPage acc p = p.results.foldl insertIfNewId acc := by
      rw [applyPage, accumulateResults, if_neg (hp p (List.mem_cons_self p t)),
        insertIfNewId_fold_eq_append_filter _ _ (hn p (List.mem_cons_self p t))]
    rw [h1]
    exact ih _ (fun x hx => hp x (List.mem_cons_of_mem p hx))
      (fun x hx => hn x (List.mem_cons_of_mem p hx))

/-- C3: page 1 replaces the accumulated set; a later page appends exactly the
not-yet-present items in page order without touching the existing prefix;
and any increasing sequence of pages (page 1 first, each page's ids
duplicate-free) accumulates to each distinct id exactly once, in first-seen
order. -/
theorem accumulate_dedup_first_seen :
    (∀ (acc : List Movie) (p : MovieListResponse), p.page = 1 →
      applyPage acc p = p.results) ∧
    (∀ (acc : List Movie) (p : MovieListResponse), p.page ≠ 1 →
      applyPage acc p = acc ++ p.results.filter (fun m => !((acc.map Movie.id).contains m.id))) ∧
    (∀ (acc0 : List Movie) (first : MovieListResponse) (rest : List MovieListResponse),
      first.page = 1 →
      List.Chain' (fun a b => a.page < b.page) (first :: rest) →
      (∀ p ∈ first :: rest, (p.results.map Movie.id).Nodup) →
      rest.foldl applyPage (applyPage acc0 first) =
        firstSeenDedup (concatResults (first :: rest)) ∧
      ((rest.foldl applyPage (applyPage acc0 first)).map Movie.id).Nodup) := by
  refine ⟨?_, ?_, ?_⟩
  · intro acc p h
    rw [applyPage, accumulateResults, if_pos h]
  · intro acc p h
    rw [applyPage, accumulateResults, if_neg h]
  · intro acc0 first rest h1 hchain hnodup
    have htrans : IsTrans MovieListResponse (fun a b => a.page < b.page) :=
      ⟨fun _ _ _ hab hbc => Nat.lt_trans hab hbc⟩
    have hpair := (@List.chain'_iff_pairwise _ _ htrans _).mp hchain
    have hrest1 : ∀ p ∈ rest, p.page ≠ 1 := by
      intro p hp
      have hlt : first.page < p.page := (List.pairwise_cons.mp hpair).1 p hp
      omega
    have happ1 : applyPage acc0 first = first.results := by
      rw [applyPage, accumulateResults, if_pos h1]
    have hfirstres : first.results.foldl insertIfNewId [] = first.results := by
      rw [insertIfNewId_fold_eq_append_filter _ _
        (hnodup first (List.mem_cons_self first rest))]
      simp
    rw [happ1, foldl_applyPage_eq_insertFold rest first.results hrest1
      (fun p hp => hnodup p (List.mem_cons_of_mem first hp))]
    constructor
    · rw [firstSeenDedup, concatResults_cons, List.foldl_append, hfirstres]
    · exact insertIfNewId_fold_nodup _ _ (hnodup first (List.mem_cons_self first rest))

/-- Witness for C3: the specification's example — page 1 `[1,2]` then page 2
`[2,3]` accumulate to `[1,2,3]` with id 2 in its first-seen position. -/
theorem accumulate_dedup_first_seen_witness :
    [(⟨2, [⟨2, "B"⟩, ⟨3, "C"⟩], 2⟩ : MovieListResponse)].foldl applyPage
        (applyPage [] ⟨1, [⟨1, "A"⟩, ⟨2, "B"⟩], 2⟩) =
      firstSeenDedup (concatResults
        [⟨1, [⟨1, "A"⟩, ⟨2, "B"⟩], 2⟩, ⟨2, [⟨2, "B"⟩, ⟨3, "C"⟩], 2⟩]) ∧
    (([(⟨2, [⟨2, "B"⟩, ⟨3, "C"⟩], 2⟩ : MovieListResponse)].foldl applyPage
        (applyPage [] ⟨1, [⟨1, "A"⟩, ⟨2, "B"⟩], 2⟩)).map Movie.id).Nodup :=
  accumulate_dedup_first_seen.2.2 [] ⟨1, [⟨1, "A"⟩, ⟨2, "B"⟩], 2⟩
    [⟨2, [⟨2, "B"⟩, ⟨3, "C"⟩], 2⟩] rfl
    (by simp [List.chain'_cons, List.chain'_singleton]) (by decide)

/-! ## Year-token lemmas (C6) -/

lemma lastCharOf_nil (prev : Option Char) : lastCharOf prev [] = prev := rfl

lemma lastCharOf_cons (prev : Option Char) (c : Char) (l : List Char) :
    lastCharOf prev (c :: l) = lastCharOf (some c) l := by
  cases l with
  | nil => rfl
  | cons x xs =>
    cases h : (x :: xs).getLast? with
    | some y => unfold lastCharOf; rw [List.getLast?_cons_cons, h]
    | none => exact absurd h (by simp)

lemma yearQuadOk_length {m : List Char} (h : yearQuadOk m = true) : m.length = 4 := by
  cases m with
  | nil => simp [yearQuadOk] at h
  | cons a t1 =>
    cases t1 with
    | nil => simp [yearQuadOk] at h
    | cons b t2 =>
      cases t2 with
      | nil => simp [yearQuadOk] at h
      | cons c t3 =>
        cases t3 with
        | nil => simp [yearQuadOk] at h
        | cons d t4 =>
          cases t4 with
          | nil => rfl
          | cons e t5 => simp [yearQuadOk] at h

lemma yearQuadAt_eq_some {s m rest : List Char} :
    yearQuadAt s = some (m, rest) ↔
      (s = m ++ rest ∧ yearQuadOk m = true ∧ boundOkR rest = true) := by
  constructor
  · intro h
    cases s with
    | nil => simp [yearQuadAt] at h
    | cons a t1 =>
      cases t1 with
      | nil => simp [yearQuadAt] at h
      | cons b t2 =>
        cases t2 with
        | nil => simp [yearQuadAt] at h
        | cons c t3 =>
          cases t3 with
          | nil => simp [yearQuadAt] at h
          | cons d rest0 =>
            simp only [yearQuadAt] at h
            split at h
            · rename_i hg
              simp only [Option.some.injEq, Prod.mk.injEq] at h
              obtain ⟨hm, hrest⟩ := h
              subst hm
              subst hrest
              simp only [Bool.and_eq_true] at hg
              exact ⟨rfl, hg.1, hg.2⟩
            · exact Option.noConfusion h
  · rintro ⟨hs, hq, hb⟩
    have hlen := yearQuadOk_length hq
    cases m with
    | nil => simp at hlen
    | cons a t1 =>
      cases t1 with
      | nil => simp at hlen
      | cons b t2 =>
        cases t2 with
        | nil => simp at hlen
        | cons c t3 =>
          cases t3 with
          | nil => simp at hlen
          | cons d t4 =>
            cases t4 with
            | cons e t5 => simp [List.length_cons] at hlen
            | nil =>
              subst hs
              show yearQuadAt (a :: b :: c :: d :: rest) = some ([a, b, c, d], rest)
              simp only [yearQuadAt]
              rw [if_pos (by simp only [Bool.and_eq_true]; exact ⟨hq, hb⟩)]

lemma yearMatchAt_eq_some {prev : Option Char} {s m rest : List Char} :
    yearMatchAt prev s = some (m, rest) ↔ YearSplit prev s [] m rest := by
  by_cases hb : boundOkL prev = true
  · unfold yearMatchAt YearSplit
    rw [if_pos hb, yearQuadAt_eq_some, lastCharOf_nil]
    simp [hb]
  · have hb' : boundOkL prev = false := by
      revert hb; cases boundOkL prev <;> simp
    unfold yearMatchAt YearSplit
    rw [if_neg hb, lastCharOf_nil]
    simp [hb']

lemma yearSplit_cons {prev : Option Char} {c : Char} {cs pre m rest : List Char} :
    YearSplit prev (c :: cs) (c :: pre) m rest ↔ YearSplit (some c) cs pre m rest := by
  unfold YearSplit
  rw [lastCharOf_cons, List.cons_append]
  simp

/-- The left-to-right scan with `yearMatchAt` finds exactly the leftmost
year-token decomposition, when one exists. -/
lemma findWithPrev_year_sound (s : List Char) (prev : Option Char) :
    (∀ pre m rest, findWithPrev yearMatchAt prev s = some (pre, m, rest) →
      YearSplit prev s pre m rest ∧
        ∀ pre' m' rest', YearSplit prev s pre' m' rest' → pre.length ≤ pre'.length) ∧
    (findWithPrev yearMatchAt prev s = none →
      ∀ pre m rest, ¬ YearSplit prev s pre m rest) := by
  induction s generalizing prev with
  | nil =>
    constructor
    · intro pre m rest h
      have hnone : yearMatchAt prev [] = none := by
        unfold yearMatchAt yearQuadAt
        split <;> rfl
      rw [findWithPrev, hnone] at h
      exact Option.noConfusion h
    · intro _ pre m rest hs
      obtain ⟨h1, h2, _, _⟩ := hs
      have hm : m = [] := by
        rcases pre with _ | ⟨p, pre0⟩
        · rcases m with _ | ⟨x, m0⟩
          · rfl
          · exact absurd h1 (by simp)
        · exact absurd h1 (by simp)
      subst hm
      simp [yearQuadOk] at h2
  | cons c cs ih =>
    constructor
    · intro pre m rest h
      rw [findWithPrev] at h
      cases hm : yearMatchAt prev (c :: cs) with
      | some v =>
        obtain ⟨m0, rest0⟩ := v
        rw [hm] at h
        simp only [Option.some.injEq, Prod.mk.injEq] at h
        obtain ⟨h1, h2, h3⟩ := h
        subst h1; subst h2; subst h3
        refine ⟨yearMatchAt_eq_some.mp hm, fun pre' m' rest' _ => Nat.zero_le _⟩
      | none =>
        rw [hm] at h
        cases hf : findWithPrev yearMatchAt (some c) cs with
        | some v =>
          obtain ⟨pre1, m1, rest1⟩ := v
          rw [hf] at h
          simp only [Option.some.injEq, Prod.mk.injEq] at h
          obtain ⟨h1, h2, h3⟩ := h
          subst h1; subst h2; subst h3
          obtain ⟨hsound, hmin⟩ := (ih (some c)).1 _ _ _ hf
          refine ⟨yearSplit_cons.mpr hsound, ?_⟩
          intro pre' m' rest' hs'
          cases pre' with
          | nil =>
            exfalso
            have := yearMatchAt_eq_some.mpr hs'
            rw [hm] at this
            exact Option.noConfusion this
          | cons c0 pre'' =>
            have hc0 : c0 = c := by
              obtain ⟨h1, _, _, _⟩ := hs'
              rw [List.cons_append] at h1
              injection h1 with hx _
              exact hx.symm
            rw [hc0] at hs'
            have := hmin pre'' m' rest' (yearSplit_cons.mp hs')
            simpa [List.length_cons] using Nat.succ_le_succ this
        | none =>
          rw [hf] at h
          exact Option.noConfusion h
    · intro h pre m rest hs
      rw [findWithPrev] at h
      cases hm : yearMatchAt prev (c :: cs) with
      | some v =>
        obtain ⟨m0, rest0⟩ := v
        rw [hm] at h
        exact Option.noConfusion h
      | none =>
        rw [hm] at h
        cases hf : findWithPrev yearMatchAt (some c) cs with
        | some v =>
          obtain ⟨pre1, m1, rest1⟩ := v
          rw [hf] at h
          exact Option.noConfusion h
        | none =>
          cases pre with
          | nil =>
            have := yearMatchAt_eq_some.mpr hs
            rw [hm] at this
            exact Option.noConfusion this
          | cons c0 pre'' =>
            have hc0 : c0 = c := by
              obtain ⟨h1, _, _, _⟩ := hs
              rw [List.cons_append] at h1
              injection h1 with hx _
              exact hx.symm
            rw [hc0] at hs
            exact (ih (some c)).2 hf pre'' m rest (yearSplit_cons.mp hs)

/-! ## Field-preservation lemmas for the later pipeline steps -/

lemma ratingStep_year (p : ParsedSearchQuery × List Char) :
    (ratingStep p).1.year = p.1.year := by
  unfold ratingStep
  cases h : tryPatterns ratingPatterns p.2 with
  | none => rfl
  | some v => obtain ⟨cap, s1⟩ := v; rfl

lemma runtimeStep_year (p : ParsedSearchQuery × List Char) :
    (runtimeStep p).1.year = p.1.year := by
  unfold runtimeStep
  cases h : tryPatterns runtimePatterns p.2 with
  | none => rfl
  | some v => obtain ⟨cap, s1⟩ := v; rfl

lemma genreStep_year (p : ParsedSearchQuery × List Char) :
    (genreStep p).1.year = p.1.year := by
  simp only [genreStep]
  split <;> rfl

lemma textStep_year (p : ParsedSearchQuery × List Char) :
    (textStep p).year = p.1.year := by
  simp only [textStep]
  split <;> rfl

lemma ratingStep_flag (p : ParsedSearchQuery × List Char) (h : p.1.useDiscover = true) :
    (ratingStep p).1.useDiscover = true := by
  unfold ratingStep
  cases hf : tryPatterns ratingPatterns p.2 with
  | none => exact h
  | some v => obtain ⟨cap, s1⟩ := v; rfl

lemma runtimeStep_flag (p : ParsedSearchQuery × List Char) (h : p.1.useDiscover = true) :
    (runtimeStep p).1.useDiscover = true := by
  unfold runtimeStep
  cases hf : tryPatterns runtimePatterns p.2 with
  | none => exact h
  | some v => obtain ⟨cap, s1⟩ := v; rfl

lemma genreStep_flag (p : ParsedSearchQuery × List Char) (h : p.1.useDiscover = true) :
    (genreStep p).1.useDiscover = true := by
  simp only [genreStep]
  split
  · rfl
  · exact h

lemma textStep_flag (p : ParsedSearchQuery × List Char) (h : p.1.useDiscover = true) :
    (textStep p).useDiscover = true := by
  simp only [textStep]
  split
  · exact h
  · exact h

/-- The g-flag year removal only ever deletes characters: its output is a
sublist of its input. -/
lemma replaceAllAux_year_sublist :
    ∀ (fuel : Nat) (prev : Option Char) (s : List Char),
      List.Sublist (replaceAllAux yearMatchAt fuel prev s) s := by
  intro fuel
  induction fuel with
  | zero => intro prev s; exact List.Sublist.refl s
  | succ f ih =>
    intro prev s
    rw [replaceAllAux]
    cases hf : findWithPrev yearMatchAt prev s with
    | none => exact List.Sublist.refl s
    | some v =>
      obtain ⟨pre0, m0, rest0⟩ := v
      obtain ⟨h1, -, -, -⟩ := ((findWithPrev_year_sound s prev).1 pre0 m0 rest0 hf).1
      show List.Sublist (pre0 ++ replaceAllAux yearMatchAt f
        (lastCharOf prev (pre0 ++ m0)) rest0) s
      rw [h1, List.append_assoc]
      exact ((ih (lastCharOf prev (pre0 ++ m0)) rest0).trans
        (List.sublist_append_right m0 rest0)).append_left pre0

/-- C6: if the (trimmed) input decomposes around a year token — a maximal
word-character run of exactly four digits matching `(19|20)\d{2}` — then the
parser records the value of the first such token as `year`, sets the advanced
flag, and removes the token from the working remainder: after the year step
the remainder is the text before the token followed by a sublist of the text
after it (trimmed), so the captured occurrence is gone.  Later tokens do not
override the first. -/
theorem year_first_token (q : String) (pre m rest : List Char)
    (h : YearSplit none (trimList q.data) pre m rest)
    (hfirst : ∀ pre' m' rest', YearSplit none (trimList q.data) pre' m' rest' →
      pre.length ≤ pre'.length) :
    (parseSearchQuery q).year = some (digitsToNat m) ∧
    (parseSearchQuery q).useDiscover = true ∧
    ∃ t : List Char, List.Sublist t rest ∧
      (yearStep ({ useDiscover := false }, trimList q.data)).2 = trimList (pre ++ t) := by
  have hne : trimList q.data ≠ [] := by
    intro he
    obtain ⟨h1, h2, _, _⟩ := h
    rw [he] at h1
    have hm : m = [] := by
      rcases pre with _ | ⟨p, pre0⟩
      · rcases m with _ | ⟨x, m0⟩
        · rfl
        · exact absurd h1 (by simp)
      · exact absurd h1 (by simp)
    subst hm
    simp [yearQuadOk] at h2
  cases hfind : findWithPrev yearMatchAt none (trimList q.data) with
  | none => exact absurd h ((findWithPrev_year_sound _ none).2 hfind pre m rest)
  | some v =>
    obtain ⟨pre0, m0, rest0⟩ := v
    obtain ⟨hsplit0, hmin0⟩ := (findWithPrev_year_sound _ none).1 pre0 m0 rest0 hfind
    have hlen : pre0.length = pre.length :=
      Nat.le_antisymm (hmin0 pre m rest h) (hfirst pre0 m0 rest0 hsplit0)
    have heq : pre0 ++ m0 ++ rest0 = pre ++ m ++ rest := by
      rw [← hsplit0.1, ← h.1]
    have hlen2 : (pre0 ++ m0).length = (pre ++ m).length := by
      simp [List.length_append, hlen, yearQuadOk_length hsplit0.2.1,
        yearQuadOk_length h.2.1]
    obtain ⟨hpm, hrest0⟩ := List.append_inj heq hlen2
    obtain ⟨hpre0, hm0⟩ := List.append_inj hpm hlen
    subst hpre0
    subst hm0
    subst hrest0
    have hpipe : parseSearchQuery q = textStep (genreStep (runtimeStep (ratingStep
        (yearStep ({ useDiscover := false }, trimList q.data))))) := by
      rw [parseSearchQuery, if_neg hne]
    have hy : yearStep ({ useDiscover := false }, trimList q.data) =
        ({ year := some (digitsToNat m0), useDiscover := true },
          trimList (replaceAll yearMatchAt (trimList q.data))) := by
      simp only [yearStep]
      rw [hfind]
    obtain ⟨k, hk⟩ : ∃ k, (trimList q.data).length = k + 1 :=
      Nat.exists_eq_succ_of_ne_zero (fun h0 => hne (List.length_eq_zero.mp h0))
    have hrem : replaceAll yearMatchAt (trimList q.data) =
        pre0 ++ replaceAllAux yearMatchAt k (lastCharOf none (pre0 ++ m0)) rest0 := by
      rw [replaceAll, hk, replaceAllAux, hfind]
    refine ⟨?_, ?_, ?_⟩
    · rw [hpipe, textStep_year, genreStep_year, runtimeStep_year, ratingStep_year, hy]
    · rw [hpipe]
      refine textStep_flag _ (genreStep_flag _ (runtimeStep_flag _ (ratingStep_flag _ ?_)))
      rw [hy]
    · refine ⟨replaceAllAux yearMatchAt k (lastCharOf none (pre0 ++ m0)) rest0,
        replaceAllAux_year_sublist k _ rest0, ?_⟩
      rw [hy]
      show trimList (replaceAll yearMatchAt (trimList q.data)) = _
      rw [hrem]

/-- Witness for C6 at "action 2020": the token "2020" after prefix
"action " is captured as the year and removed — the working remainder after
the year step is exactly "action". -/
theorem year_first_token_witness :
    (parseSearchQuery "action 2020").year = some 2020 ∧
    (parseSearchQuery "action 2020").useDiscover = true ∧
    (yearStep ({ useDiscover := false }, trimList "action 2020".data)).2 = "action".data := by
  have hfind : findWithPrev yearMatchAt none (trimList "action 2020".data) =
      some ("action ".data, "2020".data, []) := by decide
  have hs := (findWithPrev_year_sound (trimList "action 2020".data) none).1
    "action ".data "2020".data [] hfind
  obtain ⟨h1, h2, t, hsub, hrem⟩ :=
    year_first_token "action 2020" "action ".data "2020".data [] hs.1 hs.2
  refine ⟨h1, h2, ?_⟩
  rw [hrem, List.sublist_nil.mp hsub]
  decide

end MovieSearch
